import Mathlib

/-!
Shallow embedding of `src/uiuaizing.rs` from the wawa repository.

The uiua interpreter, the vorbis audio encoder, the image codec and the
primitive/documentation tables are external collaborators; they are
modelled as fields of environment structures (`Env`, `DocsEnv`) so that
the code under verification — `run_uiua`, the `From<uiua::Value> for
OutputItem` classification cascade (here `classify` / `try_from_ogg`),
and `get_docs` — is embedded faithfully over arbitrary behaviour of
those collaborators.  Machine-integer narrowing in the source
(`channels.len() as u8`, `(stack_len - MAX) as u32`) is modelled with
explicit `% 2 ^ 8` / `% 2 ^ 32` on `Nat`.
-/

/-- Constant `MIN_AUTO_IMAGE_DIM` from the source. -/
def MIN_AUTO_IMAGE_DIM : Nat := 30

/-- Constant `MAX_STACK_VALS_DISPLAYED` from the source. -/
def MAX_STACK_VALS_DISPLAYED : Nat := 10

/-- The `OutputItem` enum from the source.  `V` is the opaque type of
interpreter values (`uiua::Value`); encoded byte buffers are lists of
byte values. -/
inductive OutputItem (V : Type) where
  /-- Audio, containing encoded OGG Vorbis bytes. -/
  | Audio (bytes : List Nat)
  /-- Static image data, containing encoded PNG bytes. -/
  | Image (bytes : List Nat)
  /-- Miscellaneous value. -/
  | Misc (value : V)
  /-- Indicator that `n` more values exist (`u32` in the source). -/
  | Continuation (n : Nat)
deriving DecidableEq

/-- Environment of external collaborators used by the execution and
classification pipeline: `V` interpreter values, `F64`/`F32` sample
types, `Img` decoded images.  Each field models one opaque external
call made by `uiuaizing.rs`. -/
structure Env (V F64 F32 Img : Type) where
  /-- Models `uiua::encode::value_to_audio_channels` (fallible). -/
  value_to_audio_channels : V → Option (List (List F64))
  /-- the `x as f32` down-cast applied to every sample. -/
  f64_to_f32 : F64 → F32
  /-- the vorbis encoder chain (`VorbisEncoderBuilder::new ∘ build ∘
  encode_audio_block ∘ finish`), given sample rate, the (nonzero,
  already narrowed) channel count, and the channel data; fallible. -/
  vorbis_encode : Nat → Nat → List (List F32) → Option (List Nat)
  /-- Models `uiua::encode::value_to_image` (fallible). -/
  value_to_image : V → Option Img
  /-- Models `image.width()` (a `u32`). -/
  width : Img → Nat
  /-- Models `image.height()` (a `u32`). -/
  height : Img → Nat
  /-- Models `uiua::encode::image_to_bytes` at PNG format (fallible). -/
  image_to_bytes : Img → Option (List Nat)
  /-- Models `Uiua::with_safe_sys().with_execution_limit(..).run_str` followed
  by `take_stack`: the whole interpreter run, returning the value stack
  on success or a rendered error on failure. -/
  run_str : String → Except String (List V)

/-- The inner helper `try_from_ogg` of `impl From<uiua::Value> for
OutputItem`.  `NonZeroU32::new(44100)` always succeeds;
`NonZeroU8::new(channels.len() as u8)` fails exactly when the channel
count is a multiple of 256 (the `as u8` narrowing is `% 2 ^ 8`). -/
def try_from_ogg {V F64 F32 Img : Type} (env : Env V F64 F32 Img) (value : V) :
    Option (OutputItem V) :=
  match env.value_to_audio_channels value with
  | none => none
  | some chans =>
    let channels : List (List F32) := chans.map (fun v => v.map env.f64_to_f32)
    let nchan : Nat := channels.length % 2 ^ 8
    if nchan = 0 then none
    else
      match env.vorbis_encode 44100 nchan channels with
      | none => none
      | some sink => some (OutputItem.Audio sink)

/-- The body of `impl From<uiua::Value> for OutputItem`: the ordered
audio → image → misc classification cascade. -/
def classify {V F64 F32 Img : Type} (env : Env V F64 F32 Img) (value : V) :
    OutputItem V :=
  match try_from_ogg env value with
  | some this => this
  | none =>
    match env.value_to_image value with
    | some image =>
      if MIN_AUTO_IMAGE_DIM ≤ env.width image ∧ MIN_AUTO_IMAGE_DIM ≤ env.height image then
        match env.image_to_bytes image with
        | some bytes => OutputItem.Image bytes
        | none => OutputItem.Misc value
      else OutputItem.Misc value
    | none => OutputItem.Misc value

/-- Function `run_uiua` from the source.  The `(stack_len - MAX) as u32` cast is
modelled by `% 2 ^ 32`. -/
def run_uiua {V F64 F32 Img : Type} (env : Env V F64 F32 Img) (code : String) :
    Except String (List (OutputItem V)) :=
  if code.isEmpty then
    Except.error "Cannot run empty code"
  else
    match env.run_str ("# Experimental!\n" ++ code) with
    | Except.ok stack0 =>
      let stack_len := stack0.length
      let stack :=
        if MAX_STACK_VALS_DISPLAYED < stack_len then stack0.take MAX_STACK_VALS_DISPLAYED
        else stack0
      Except.ok (stack.map (fun val => classify env val) ++
        (if MAX_STACK_VALS_DISPLAYED < stack_len then
          [OutputItem.Continuation ((stack_len - MAX_STACK_VALS_DISPLAYED) % 2 ^ 32)]
        else []))
    | Except.error e => Except.error ("Error while running: " ++ e ++ " ")

/-- The identity of a uiua `Primitive` as the documentation renderer
uses it: its canonical display name (`name()`), optional glyph
(`names().glyph`) and experimental flag (`is_experimental()`). -/
structure Primitive where
  name : String
  glyph : Option Char
  experimental : Bool
deriving DecidableEq

/-- The `PrimDocFragment` enum of the uiua documentation model. -/
inductive PrimDocFragment where
  | Text (t : String)
  | Code (t : String)
  | Emphasis (t : String)
  | Strong (t : String)
  | Prim (prim : Primitive) (named : Bool)
  | Link (text url : String)

/-- The `PrimDocLine` enum: a prose line of fragments, or an example
with input source and output (`Result<Vec<String>, String>`). -/
inductive PrimDocLine where
  | Text (vs : List PrimDocFragment)
  | Example (input : String) (output : Except String (List String))

/-- Environment of external collaborators used by `get_docs` and its
helpers: the primitive lookup tables, each primitive's documentation,
the `EMOJI_MAP` table and the syntax highlighter. -/
structure DocsEnv where
  /-- Models `Primitive::from_format_name`. -/
  from_format_name : String → Option Primitive
  /-- Models `Primitive::from_glyph`. -/
  from_glyph : Char → Option Primitive
  /-- Models `Primitive::from_name`. -/
  from_name : String → Option Primitive
  /-- Models `prim.doc().short`. -/
  doc_short : Primitive → List PrimDocFragment
  /-- Models `prim.doc().lines`. -/
  doc_lines : Primitive → List PrimDocLine
  /-- lookup in the `EMOJI_MAP` static table. -/
  emoji_map : String → Option String
  /-- Models `highlight_code` (defined elsewhere in the crate). -/
  highlight_code : String → String

/-- Function `print_emoji` from the source. -/
def print_emoji (env : DocsEnv) (c : Primitive) : String :=
  if c.experimental then
    match c.glyph with
    | some g => String.singleton g
    | none => c.name
  else
    let spaceless_name := String.join (c.name.splitOn " ")
    match env.emoji_map spaceless_name with
    | some _id => ":" ++ spaceless_name ++ ":"
    | none => "<" ++ spaceless_name ++ ">"

/-- Function `print_doc_frag` from the source. -/
def print_doc_frag (env : DocsEnv) (frag : PrimDocFragment) : String :=
  match frag with
  | .Text t => t
  | .Code t => "`" ++ t ++ "`"
  | .Emphasis t => "_" ++ t ++ "_"
  | .Strong t => "**" ++ t ++ "**"
  | .Prim prim named =>
    if named then print_emoji env prim ++ " `" ++ prim.name ++ "`"
    else print_emoji env prim
  | .Link text url => "[" ++ text ++ "](" ++ url ++ ")"

/-- Rust `str::lines`: split on `'\n'`, dropping one trailing empty
line and stripping a trailing `'\r'` from each line. -/
def rustLines (s : String) : List String :=
  let parts := s.splitOn "\n"
  let parts := if parts.getLast? = some "" then parts.dropLast else parts
  parts.map (fun l => if l.endsWith "\r" then l.dropRight 1 else l)

/-- Function `print_docs` from the source (rendering one `PrimDocLine`). -/
def print_docs (env : DocsEnv) (line : PrimDocLine) : String :=
  match line with
  | .Text vs => String.intercalate " " (vs.map (print_doc_frag env))
  | .Example input output =>
    let out :=
      match output with
      | .ok l => String.intercalate ";" l
      | .error l => l
    let text := input ++ "\n" ++
      String.join ((rustLines out).map (fun l => "# " ++ l ++ "\n"))
    env.highlight_code text

/-- Models `f.chars().next().unwrap_or_default()`: the first character of the
token, or `'\x00'` (Rust `char::default()`) when it is empty. -/
def firstCharOrDefault (f : String) : Char :=
  f.toList.head?.getD (Char.ofNat 0)

/-- The symbol-resolution chain at the head of `get_docs`:
`Primitive::from_format_name(f).or_else(.. from_glyph ..).or_else(.. from_name ..)`. -/
def resolve (env : DocsEnv) (f : String) : Option Primitive :=
  ((env.from_format_name f).orElse
      (fun _ => env.from_glyph (firstCharOrDefault f))).orElse
    (fun _ => env.from_name f)

/-- Function `get_docs` from the source. -/
def get_docs (env : DocsEnv) (f : String) : String :=
  match resolve env f with
  | some docs =>
    let short := String.intercalate "\n"
      ((env.doc_short docs).map (fun fr => "## " ++ print_doc_frag env fr))
    let long := String.intercalate "\n"
      (((env.doc_lines docs).take 5).map (print_docs env))
    "\n" ++ short ++ "\n\n\n" ++ long ++
      "\n\n([More information](https://uiua.org/docs/" ++ f ++ "))"
  | none => "No docs found for '" ++ f ++ "', did you spell it right?"

/-! ### Helper lemmas -/

/-- Lemma: `try_from_ogg` only ever succeeds with an `Audio` item. -/
theorem try_from_ogg_eq_some {V F64 F32 Img : Type} (env : Env V F64 F32 Img)
    (v : V) (o : OutputItem V) (h : try_from_ogg env v = some o) :
    ∃ b, o = OutputItem.Audio b := by
  unfold try_from_ogg at h
  rcases hc : env.value_to_audio_channels v with _ | chans
  · rw [hc] at h; exact absurd h (by simp)
  · rw [hc] at h
    simp only at h
    split at h
    · exact absurd h (by simp)
    · rcases he : env.vorbis_encode 44100
          ((chans.map (fun v => v.map env.f64_to_f32)).length % 2 ^ 8)
          (chans.map (fun v => v.map env.f64_to_f32)) with _ | sink
      · rw [he] at h; exact absurd h (by simp)
      · rw [he] at h
        simp only [Option.some.injEq] at h
        exact ⟨sink, h.symm⟩

/-- Lemma: `classify` never produces a `Continuation` item. -/
theorem classify_ne_continuation {V F64 F32 Img : Type} (env : Env V F64 F32 Img)
    (v : V) (n : Nat) : classify env v ≠ OutputItem.Continuation n := by
  unfold classify
  rcases ho : try_from_ogg env v with _ | o
  · rcases hi : env.value_to_image v with _ | img
    · simp
    · simp only
      split
      · rcases hb : env.image_to_bytes img with _ | bytes <;> simp
      · simp
  · obtain ⟨b, rfl⟩ := try_from_ogg_eq_some env v o ho
    simp

/-! ### Claims -/

/-- C2: for the empty input string, `run_uiua` returns the input error
immediately; the result does not depend on the interpreter environment
at all (the interpreter is never invoked). -/
theorem run_empty_code_error {V F64 F32 Img : Type} (env : Env V F64 F32 Img) :
    run_uiua env "" = Except.error "Cannot run empty code" := rfl

/-- C3: the classification cascade is total and deterministic: every
value is mapped to exactly one of `Audio`, `Image`, or `Misc` (wrapping
the original value), and never to a `Continuation`. -/
theorem classify_total_cascade {V F64 F32 Img : Type} (env : Env V F64 F32 Img)
    (v : V) :
    ((∃ b, classify env v = OutputItem.Audio b) ∨
      (∃ b, classify env v = OutputItem.Image b) ∨
      classify env v = OutputItem.Misc v) ∧
    ∀ n, classify env v ≠ OutputItem.Continuation n := by
  refine ⟨?_, fun n => classify_ne_continuation env v n⟩
  unfold classify
  rcases ho : try_from_ogg env v with _ | o
  · rcases hi : env.value_to_image v with _ | img
    · simp
    · simp only
      split
      · rcases hb : env.image_to_bytes img with _ | bytes
        · simp
        · exact Or.inr (Or.inl ⟨bytes, rfl⟩)
      · simp
  · obtain ⟨b, rfl⟩ := try_from_ogg_eq_some env v o ho
    exact Or.inl ⟨b, rfl⟩

/-- Shape of a successful `run_uiua` in terms of the interpreter's
stack. -/
theorem run_uiua_ok {V F64 F32 Img : Type} (env : Env V F64 F32 Img)
    (code : String) (stack : List V) (h : code.isEmpty = false)
    (hrun : env.run_str ("# Experimental!\n" ++ code) = Except.ok stack) :
    run_uiua env code = Except.ok
      ((if MAX_STACK_VALS_DISPLAYED < stack.length then
          stack.take MAX_STACK_VALS_DISPLAYED
        else stack).map (fun val => classify env val) ++
       (if MAX_STACK_VALS_DISPLAYED < stack.length then
          [OutputItem.Continuation
            ((stack.length - MAX_STACK_VALS_DISPLAYED) % 2 ^ 32)]
        else [])) := by
  unfold run_uiua
  rw [hrun]
  simp [h]

/-- C1 (amended): a successful run with interpreter stack of length
`L ≤ 10` yields exactly the `L` classified values in order with no
`Continuation`; with `L > 10` it yields the first 10 classified values
followed by one `Continuation ((L - 10) % 2 ^ 32)` — the count is
narrowed to `u32`. -/
theorem run_stack_truncation {V F64 F32 Img : Type} (env : Env V F64 F32 Img)
    (code : String) (stack : List V) (h : code.isEmpty = false)
    (hrun : env.run_str ("# Experimental!\n" ++ code) = Except.ok stack) :
    (stack.length ≤ MAX_STACK_VALS_DISPLAYED →
      run_uiua env code =
        Except.ok (stack.map (fun val => classify env val)) ∧
      ∀ n, OutputItem.Continuation n ∉
        stack.map (fun val => classify env val)) ∧
    (MAX_STACK_VALS_DISPLAYED < stack.length →
      run_uiua env code = Except.ok
        ((stack.take MAX_STACK_VALS_DISPLAYED).map (fun val => classify env val) ++
         [OutputItem.Continuation
           ((stack.length - MAX_STACK_VALS_DISPLAYED) % 2 ^ 32)])) := by
  have hok := run_uiua_ok env code stack h hrun
  constructor
  · intro hle
    rw [if_neg (Nat.not_lt.mpr hle), if_neg (Nat.not_lt.mpr hle)] at hok
    refine ⟨by simpa using hok, ?_⟩
    intro n hmem
    rw [List.mem_map] at hmem
    obtain ⟨v, _, hv⟩ := hmem
    exact classify_ne_continuation env v n hv
  · intro hgt
    rw [if_pos hgt, if_pos hgt] at hok
    exact hok

/-- A concrete environment in which every classification attempt fails
(all values classify as `Misc`) and the interpreter returns the given
stack. -/
def miscEnv (stack : List Nat) : Env Nat Int Int Nat where
  value_to_audio_channels := fun _ => none
  f64_to_f32 := fun x => x
  vorbis_encode := fun _ _ _ => none
  value_to_image := fun _ => none
  width := fun _ => 0
  height := fun _ => 0
  image_to_bytes := fun _ => none
  run_str := fun _ => Except.ok stack

theorem classify_miscEnv (stack : List Nat) (v : Nat) :
    classify (miscEnv stack) v = OutputItem.Misc v := rfl

/-- C1 (counterexample): on a successful run with stack length
`L = 2 ^ 32 + 11 > 10`, the final item is `Continuation 1` — the count
is `(L - 10)` narrowed to `u32` — and not `Continuation (L - 10)` as
the claim states, since `L - 10 = 2 ^ 32 + 1 ≠ 1`. -/
theorem run_continuation_wraps_u32_cex :
    run_uiua (miscEnv (List.replicate (2 ^ 32 + 11) 0)) "x" =
      Except.ok (List.replicate 10 (OutputItem.Misc 0) ++
        [OutputItem.Continuation 1]) ∧
    (2 ^ 32 + 11 : Nat) - 10 ≠ 1 := by
  constructor
  · have h := run_uiua_ok (miscEnv (List.replicate (2 ^ 32 + 11) 0)) "x"
      (List.replicate (2 ^ 32 + 11) 0) (by decide) rfl
    rw [h]
    have hgt : MAX_STACK_VALS_DISPLAYED < (List.replicate (2 ^ 32 + 11) (0 : Nat)).length := by
      rw [List.length_replicate]
      norm_num [MAX_STACK_VALS_DISPLAYED]
    rw [if_pos hgt, if_pos hgt]
    simp only [List.take_replicate, List.map_replicate, classify_miscEnv,
      List.length_replicate, MAX_STACK_VALS_DISPLAYED]
    norm_num
  · norm_num

/-- Witness for C1 (amended): a run with 13 stack values yields the 10
first classified values followed by `Continuation 3`. -/
theorem run_stack_truncation_witness :
    run_uiua (miscEnv (List.replicate 13 0)) "x" =
      Except.ok (List.replicate 10 (OutputItem.Misc 0) ++
        [OutputItem.Continuation 3]) := by
  have h := (run_stack_truncation (miscEnv (List.replicate 13 0)) "x"
      (List.replicate 13 0) (by decide) rfl).2 (by decide)
  simpa [List.take_replicate, List.map_replicate, classify_miscEnv] using h

/-- Lemma: `try_from_ogg` succeeds (with the encoded bytes) whenever the
channel conversion succeeds, the narrowed channel count is nonzero and
the encoder succeeds. -/
theorem try_from_ogg_encode {V F64 F32 Img : Type} (env : Env V F64 F32 Img)
    (v : V) (chans : List (List F64)) (bytes : List Nat)
    (hconv : env.value_to_audio_channels v = some chans)
    (hn : (chans.map (fun c => c.map env.f64_to_f32)).length % 2 ^ 8 ≠ 0)
    (henc : env.vorbis_encode 44100
        ((chans.map (fun c => c.map env.f64_to_f32)).length % 2 ^ 8)
        (chans.map (fun c => c.map env.f64_to_f32)) = some bytes) :
    try_from_ogg env v = some (OutputItem.Audio bytes) := by
  unfold try_from_ogg
  rw [hconv]
  simp only
  rw [if_neg hn, henc]

/-- A concrete environment where the audio-channel conversion succeeds
with one channel but the vorbis encoder fails, while the value also
converts to a large enough image. -/
def cenvAudioFail : Env Nat Int Int Nat where
  value_to_audio_channels := fun _ => some [[0]]
  f64_to_f32 := fun x => x
  vorbis_encode := fun _ _ _ => none
  value_to_image := fun _ => some 0
  width := fun _ => 30
  height := fun _ => 30
  image_to_bytes := fun _ => some [7]
  run_str := fun _ => Except.error "unused"

/-- C4 (counterexample): the audio-channel conversion alone does not
force an `Audio` classification — with the conversion succeeding but
the encoder failing, the value classifies as `Image`, not `Audio`. -/
theorem classify_audio_conv_not_sufficient_cex :
    cenvAudioFail.value_to_audio_channels 0 = some [[0]] ∧
    classify cenvAudioFail 0 = OutputItem.Image [7] ∧
    ∀ b, (OutputItem.Image [7] : OutputItem Nat) ≠ OutputItem.Audio b := by
  refine ⟨rfl, by decide, fun b => by simp⟩

/-- C4 (amended): whenever the whole audio pipeline succeeds — the
channel conversion, the nonzero narrowed channel count, and the vorbis
encoding — `classify` returns `Audio` and never falls through to
`Image` or `Misc`, regardless of how the image stage would behave. -/
theorem classify_audio_priority {V F64 F32 Img : Type} (env : Env V F64 F32 Img)
    (v : V) (chans : List (List F64)) (bytes : List Nat)
    (hconv : env.value_to_audio_channels v = some chans)
    (hn : (chans.map (fun c => c.map env.f64_to_f32)).length % 2 ^ 8 ≠ 0)
    (henc : env.vorbis_encode 44100
        ((chans.map (fun c => c.map env.f64_to_f32)).length % 2 ^ 8)
        (chans.map (fun c => c.map env.f64_to_f32)) = some bytes) :
    classify env v = OutputItem.Audio bytes := by
  unfold classify
  rw [try_from_ogg_encode env v chans bytes hconv hn henc]

/-- A concrete environment where both the audio pipeline and the image
pipeline would succeed. -/
def cenvAudioOk : Env Nat Int Int Nat where
  value_to_audio_channels := fun _ => some [[0]]
  f64_to_f32 := fun x => x
  vorbis_encode := fun _ _ _ => some [5]
  value_to_image := fun _ => some 0
  width := fun _ => 30
  height := fun _ => 30
  image_to_bytes := fun _ => some [7]
  run_str := fun _ => Except.error "unused"

/-- Witness for C4 (amended): with a working audio pipeline the value
classifies as `Audio` even though it is also image-convertible with
both dimensions at the threshold. -/
theorem classify_audio_priority_witness :
    classify cenvAudioOk 0 = OutputItem.Audio [5] :=
  classify_audio_priority cenvAudioOk 0 [[0]] [5] rfl (by decide) rfl

/-- C5: for a value that is not audio-shaped but converts to an image,
the 30-pixel threshold is a hard boundary: with both dimensions ≥ 30
and a successful PNG encoding the result is `Image`; with either
dimension equal to 29 the value falls through to `Misc`. -/
theorem classify_image_dim_threshold {V F64 F32 Img : Type}
    (env : Env V F64 F32 Img) (v : V) (img : Img)
    (hogg : try_from_ogg env v = none)
    (himg : env.value_to_image v = some img) :
    (∀ b, MIN_AUTO_IMAGE_DIM ≤ env.width img →
       MIN_AUTO_IMAGE_DIM ≤ env.height img →
       env.image_to_bytes img = some b →
       classify env v = OutputItem.Image b) ∧
    ((env.width img = 29 ∨ env.height img = 29) →
       classify env v = OutputItem.Misc v) := by
  constructor
  · intro b hw hh hb
    unfold classify
    rw [hogg, himg]
    simp only
    rw [if_pos ⟨hw, hh⟩, hb]
  · intro h29
    have hcond : ¬(MIN_AUTO_IMAGE_DIM ≤ env.width img ∧
        MIN_AUTO_IMAGE_DIM ≤ env.height img) := by
      rcases h29 with h | h <;> simp [h, MIN_AUTO_IMAGE_DIM]
    unfold classify
    rw [hogg, himg]
    simp only
    rw [if_neg hcond]

/-- A concrete environment where the audio stage fails and the value
converts to a 30×30 image that encodes successfully. -/
def cenvImage : Env Nat Int Int Nat where
  value_to_audio_channels := fun _ => none
  f64_to_f32 := fun x => x
  vorbis_encode := fun _ _ _ => none
  value_to_image := fun _ => some 0
  width := fun _ => 30
  height := fun _ => 30
  image_to_bytes := fun _ => some [9]
  run_str := fun _ => Except.error "unused"

/-- Witness for C5: a non-audio value decoding to a 30×30 image
classifies as `Image`. -/
theorem classify_image_dim_threshold_witness :
    classify cenvImage 0 = OutputItem.Image [9] :=
  (classify_image_dim_threshold cenvImage 0 0 rfl rfl).1 [9] (by decide)
    (by decide) rfl

/-- C6 (counterexample): a successful run whose interpreter stack is
empty returns the empty sequence — a successful `ExecutionResult` can
be empty. -/
theorem run_success_empty_cex :
    run_uiua (miscEnv []) "x" = Except.ok ([] : List (OutputItem Nat)) := rfl

/-- C6 (amended): a successful run returns an ordered sequence that is
empty exactly when the interpreter's stack is empty, and the result is
never simultaneously an error. -/
theorem run_success_sequence {V F64 F32 Img : Type} (env : Env V F64 F32 Img)
    (code : String) (stack : List V) (h : code.isEmpty = false)
    (hrun : env.run_str ("# Experimental!\n" ++ code) = Except.ok stack) :
    ∃ items, run_uiua env code = Except.ok items ∧
      (items = [] ↔ stack = []) ∧
      ∀ msg, run_uiua env code ≠ Except.error msg := by
  have hok := run_uiua_ok env code stack h hrun
  refine ⟨_, hok, ?_, ?_⟩
  · by_cases hlen : MAX_STACK_VALS_DISPLAYED < stack.length
    · rw [if_pos hlen, if_pos hlen]
      refine iff_of_false (by simp) ?_
      intro hnil
      rw [hnil] at hlen
      simp [MAX_STACK_VALS_DISPLAYED] at hlen
    · rw [if_neg hlen, if_neg hlen]
      simp
  · intro msg hcontra
    rw [hok] at hcontra
    exact absurd hcontra (by simp)

/-- Witness for C6 (amended): a run with a one-value stack returns a
non-empty sequence and is not an error. -/
theorem run_success_sequence_witness :
    ∃ items, run_uiua (miscEnv [1]) "x" = Except.ok items ∧
      (items = [] ↔ ([1] : List Nat) = []) ∧
      ∀ msg, run_uiua (miscEnv [1]) "x" ≠ Except.error msg :=
  run_success_sequence (miscEnv [1]) "x" [1] (by decide) rfl

/-- A concrete environment whose interpreter run always fails with
message `"boom"`. -/
def cenvErr : Env Nat Int Int Nat where
  value_to_audio_channels := fun _ => none
  f64_to_f32 := fun x => x
  vorbis_encode := fun _ _ _ => none
  value_to_image := fun _ => none
  width := fun _ => 0
  height := fun _ => 0
  image_to_bytes := fun _ => none
  run_str := fun _ => Except.error "boom"

/-- C7 (counterexample): the error string produced on interpreter
failure carries a trailing space after the detail — it is not exactly
the template `"Error while running: {detail}"` with no additional
characters. -/
theorem run_error_trailing_space_cex :
    run_uiua cenvErr "x" = Except.error "Error while running: boom " ∧
    "Error while running: boom " ≠ "Error while running: boom" :=
  ⟨rfl, by decide⟩

/-- C7 (amended): on interpreter failure with message `e`, `run_uiua`
returns exactly `"Error while running: " ++ e ++ " "` — the fixed
template followed by one trailing space. -/
theorem run_error_template {V F64 F32 Img : Type} (env : Env V F64 F32 Img)
    (code : String) (e : String) (h : code.isEmpty = false)
    (hrun : env.run_str ("# Experimental!\n" ++ code) = Except.error e) :
    run_uiua env code = Except.error ("Error while running: " ++ e ++ " ") := by
  unfold run_uiua
  rw [hrun]
  simp [h]

/-- Witness for C7 (amended). -/
theorem run_error_template_witness :
    run_uiua cenvErr "y" = Except.error ("Error while running: " ++ "boom" ++ " ") :=
  run_error_template cenvErr "y" "boom" (by decide) rfl

/-- When the audio stage fails, `classify` lands in the image stage or
the `Misc` catch-all. -/
theorem classify_of_ogg_none {V F64 F32 Img : Type} (env : Env V F64 F32 Img)
    (v : V) (hogg : try_from_ogg env v = none) :
    (∃ b, classify env v = OutputItem.Image b) ∨
    classify env v = OutputItem.Misc v := by
  unfold classify
  rw [hogg]
  rcases hi : env.value_to_image v with _ | img
  · simp
  · simp only
    split
    · rcases hb : env.image_to_bytes img with _ | bytes
      · simp
      · exact Or.inl ⟨bytes, rfl⟩
    · simp

/-- C10: when the audio-channel conversion succeeds with a positive
channel count that is a multiple of 256, the `as u8` narrowing makes
the channel count zero, the `NonZeroU8` constructor for the encoder
builder rejects it, `try_from_ogg` fails, and the value is never
classified as `Audio`. -/
theorem classify_channels_mod256 {V F64 F32 Img : Type}
    (env : Env V F64 F32 Img) (v : V) (chans : List (List F64))
    (hconv : env.value_to_audio_channels v = some chans)
    (_hpos : 0 < chans.length) (hmod : chans.length % 2 ^ 8 = 0) :
    try_from_ogg env v = none ∧
    ∀ b, classify env v ≠ OutputItem.Audio b := by
  have hlen : (chans.map (fun c => c.map env.f64_to_f32)).length % 2 ^ 8 = 0 := by
    rw [List.length_map]
    exact hmod
  have hogg : try_from_ogg env v = none := by
    unfold try_from_ogg
    rw [hconv]
    simp only
    rw [if_pos hlen]
  refine ⟨hogg, fun b => ?_⟩
  rcases classify_of_ogg_none env v hogg with ⟨b2, hb2⟩ | hmisc
  · rw [hb2]; simp
  · rw [hmisc]; simp

/-- A concrete environment whose audio conversion yields exactly 256
channels, with an encoder that would succeed if it were ever reached. -/
def cenv256 : Env Nat Int Int Nat where
  value_to_audio_channels := fun _ => some (List.replicate 256 [])
  f64_to_f32 := fun x => x
  vorbis_encode := fun _ _ _ => some [5]
  value_to_image := fun _ => none
  width := fun _ => 0
  height := fun _ => 0
  image_to_bytes := fun _ => none
  run_str := fun _ => Except.error "unused"

/-- Witness for C10: a 256-channel conversion is rejected by the
narrowed channel count and never classified as `Audio`. -/
theorem classify_channels_mod256_witness :
    try_from_ogg cenv256 0 = none ∧
    ∀ b, classify cenv256 0 ≠ OutputItem.Audio b :=
  classify_channels_mod256 cenv256 0 (List.replicate 256 []) rfl
    (by rw [List.length_replicate]; norm_num)
    (by rw [List.length_replicate]; norm_num)



/-- C8: when no symbol resolves through the display-name, glyph and
internal-name lookups (the empty token included), `get_docs` returns
the "no docs found" message with the original token embedded verbatim;
being a total Lean function it never fails. -/
theorem get_docs_not_found (env : DocsEnv) (f : String)
    (h1 : env.from_format_name f = none)
    (h2 : env.from_glyph (firstCharOrDefault f) = none)
    (h3 : env.from_name f = none) :
    get_docs env f = "No docs found for '" ++ f ++ "', did you spell it right?" ∧
    ∃ pre post, get_docs env f = pre ++ f ++ post := by
  have hres : resolve env f = none := by
    unfold resolve
    rw [h1, h2, h3]
    rfl
  have hmain : get_docs env f =
      "No docs found for '" ++ f ++ "', did you spell it right?" := by
    unfold get_docs
    rw [hres]
  exact ⟨hmain, "No docs found for '", "', did you spell it right?", hmain⟩

/-- A concrete documentation environment where no token resolves. -/
def cenvDocsNone : DocsEnv where
  from_format_name := fun _ => none
  from_glyph := fun _ => none
  from_name := fun _ => none
  doc_short := fun _ => []
  doc_lines := fun _ => []
  emoji_map := fun _ => none
  highlight_code := fun s => s

/-- Witness for C8: the empty token resolves to nothing and yields the
"no docs found" message. -/
theorem get_docs_not_found_witness :
    get_docs cenvDocsNone "" =
      "No docs found for '" ++ "" ++ "', did you spell it right?" :=
  (get_docs_not_found cenvDocsNone "" rfl rfl rfl).1

/-- The primitive used in the C9 counterexample: its canonical name
differs from the token that resolves to it. -/
def prim9 : Primitive where
  name := "join"
  glyph := none
  experimental := false

/-- A concrete documentation environment where the token `"x"`
resolves (by display name) to the primitive `prim9` named `"join"`,
with empty documentation. -/
def cenvDocs9 : DocsEnv where
  from_format_name := fun s => if s = "x" then some prim9 else none
  from_glyph := fun _ => none
  from_name := fun _ => none
  doc_short := fun _ => []
  doc_lines := fun _ => []
  emoji_map := fun _ => none
  highlight_code := fun s => s

set_option maxRecDepth 4000 in
/-- C9 (counterexample): the trailing documentation link embeds the
user's original token, not the resolved symbol's canonical name: the
token `"x"` resolves to the primitive named `"join"`, yet the markup
ends with `.../docs/x))` and not with `.../docs/join))` (suffixes
checked on the character lists). -/
theorem get_docs_link_uses_token_cex :
    cenvDocs9.from_format_name "x" = some prim9 ∧
    prim9.name = "join" ∧
    get_docs cenvDocs9 "x" =
      "\n\n\n\n\n\n([More information](https://uiua.org/docs/x))" ∧
    ¬ "([More information](https://uiua.org/docs/join))".data <:+
      "\n\n\n\n\n\n([More information](https://uiua.org/docs/x))".data ∧
    "([More information](https://uiua.org/docs/x))".data <:+
      "\n\n\n\n\n\n([More information](https://uiua.org/docs/x))".data := by
  refine ⟨by decide, rfl, by decide, by decide, by decide⟩

/-- C9 (amended): for every token that resolves to a symbol, the markup
ends with the reference link embedding the original token into the
fixed documentation-site URL template. -/
theorem get_docs_trailing_link (env : DocsEnv) (f : String) (prim : Primitive)
    (h : resolve env f = some prim) :
    ∃ pre, get_docs env f =
      pre ++ ("\n\n([More information](https://uiua.org/docs/" ++ (f ++ "))")) := by
  unfold get_docs
  rw [h]
  refine ⟨"\n" ++ String.intercalate "\n"
      ((env.doc_short prim).map (fun fr => "## " ++ print_doc_frag env fr)) ++
      "\n\n\n" ++ String.intercalate "\n"
      (((env.doc_lines prim).take 5).map (print_docs env)), ?_⟩
  simp only [String.append_assoc]

/-- Witness for C9 (amended): the resolved token `"x"` produces markup
ending in the documentation link for `"x"`. -/
theorem get_docs_trailing_link_witness :
    ∃ pre, get_docs cenvDocs9 "x" =
      pre ++ ("\n\n([More information](https://uiua.org/docs/" ++ ("x" ++ "))")) :=
  get_docs_trailing_link cenvDocs9 "x" prim9 (by decide)
